import Mathlib

/-!
Verification of the interactive image-partition engine of the 4bunnkatu
repository (an image 4-way splitter).  The core logic lives in the
`ImageEditor` component: the cut-position model (`cuts`, `direction`),
the pointer-drag controller (`handleDragStart`, `handleMove`,
`handleDragEnd`, `handleDirectionChange`) and the slice rasterizer
(`generateSlices`).  The embedding below translates that code into pure
Lean definitions over exact rationals (`ℚ` stands for the JavaScript
floating-point numbers; no claim here depends on rounding).
-/

namespace FourSplit

/-- `SplitDirection` from `types.ts`: `HORIZONTAL` cuts horizontally
(creates rows, vertical stacking; the spec's `DOWN`), `VERTICAL` cuts
vertically (creates columns, horizontal stacking; the spec's `ACROSS`). -/
inductive SplitDirection where
  | HORIZONTAL
  | VERTICAL
deriving DecidableEq, Repr

/-- One slice output.  The source's `SplitResult` carries `id`, a `dataUrl`
(the losslessly encoded pixels of the source rectangle), `width := sw` and
`height := sh`; the opaque pixel payload is abstracted to the source
rectangle `(sx, sy, sw, sh)` it encodes, which is what every claim is
about. -/
structure SplitResult where
  id : Nat
  sx : ℚ
  sy : ℚ
  sw : ℚ
  sh : ℚ
deriving DecidableEq, Repr

/-- `padding = 0.05` in `handleMove` — the 5% minimum gap (the spec's
`minGap`). -/
def minGap : ℚ := 1/20

/-- The initial / reset cut positions `[0.25, 0.50, 0.75]`. -/
def defaultCuts : List ℚ := [1/4, 1/2, 3/4]

/-- `const sortedCuts = [0, ...cuts, 1].sort((a, b) => a - b)` — the
defensively sorted boundary sequence of `generateSlices`. -/
def sortedBoundaries (cuts : List ℚ) : List ℚ :=
  List.insertionSort (· ≤ ·) ((0 : ℚ) :: cuts ++ [1])

/-- The rectangle computed for loop index `i` of `generateSlices`
(before the degenerate-segment skip): `startPct = sortedCuts[i]`,
`endPct = sortedCuts[i+1]`, `sizePct = endPct - startPct`, then for
`VERTICAL` columns `sx = W·startPct, sy = 0, sw = W·sizePct, sh = H`
and for `HORIZONTAL` rows `sx = 0, sy = H·startPct, sw = W,
sh = H·sizePct`.  `W`, `H` are `img.naturalWidth`, `img.naturalHeight`. -/
def sliceAt (direction : SplitDirection) (W H : ℚ) (sortedCuts : List ℚ)
    (i : Nat) : SplitResult :=
  let startPct := sortedCuts.getD i 0
  let endPct := sortedCuts.getD (i + 1) 0
  let sizePct := endPct - startPct
  match direction with
  | .VERTICAL =>
      { id := i, sx := W * startPct, sy := 0, sw := W * sizePct, sh := H }
  | .HORIZONTAL =>
      { id := i, sx := 0, sy := H * startPct, sw := W, sh := H * sizePct }

/-- The body of the rectangle loop of `generateSlices` at index `i`:
compute the rectangle, then `if (sw <= 0 || sh <= 0) continue;` drops the
segment (`none`), otherwise the `SplitResult` with `id := i` is pushed
(`some`). -/
def sliceResultAt (direction : SplitDirection) (W H : ℚ)
    (sortedCuts : List ℚ) (i : Nat) : Option SplitResult :=
  let r := sliceAt direction W H sortedCuts i
  if r.sw ≤ 0 ∨ r.sh ≤ 0 then none else some r

/-- The rectangle loop of `generateSlices`: `for (let i = 0;
i < sortedCuts.length - 1; i++)`, pushing the non-degenerate rectangles
in index order.  The function is total: no input throws. -/
def generateSlices (direction : SplitDirection) (cuts : List ℚ)
    (W H : ℚ) : List SplitResult :=
  let sortedCuts := sortedBoundaries cuts
  (List.range (sortedCuts.length - 1)).filterMap
    (sliceResultAt direction W H sortedCuts)

/-- The observable outcome of one full `generateSlices` pass.  `emitted`
is the argument of the `onResultsGenerated` call, or `none` when the pass
returns without calling it; `userMessage` is any user-facing message the
pass produces (the component has no error-surfacing channel, so the
source never sets one). -/
structure PassOutcome where
  emitted : Option (List SplitResult)
  userMessage : Option String
deriving DecidableEq, Repr

/-- The whole `generateSlices` pass including its early returns:
`if (!imageRef.current) return;` and, after `getContext('2d')`,
`if (!ctx) { setIsProcessing(false); return; }` — both return without
emitting results and without any user-facing message; otherwise the
rectangle loop runs and `onResultsGenerated(newResults)` is called.
(The `await` for `img.complete` only delays the same computation and is
not observable in the result.) -/
def generateSlicesPass (imgPresent : Bool) (ctxAvailable : Bool)
    (direction : SplitDirection) (cuts : List ℚ) (W H : ℚ) : PassOutcome :=
  if imgPresent = false then
    { emitted := none, userMessage := none }
  else if ctxAvailable = false then
    { emitted := none, userMessage := none }
  else
    { emitted := some (generateSlices direction cuts W H), userMessage := none }

/-- The clamp bounds of `handleMove` (the spec's `computeBounds(index)`):
`prevLimit = index > 0 ? cuts[index-1] + padding : 0 + padding`,
`nextLimit = index < cuts.length - 1 ? cuts[index+1] - padding
: 1 - padding`. -/
def computeBounds (cuts : List ℚ) (index : Nat) : ℚ × ℚ :=
  (if index > 0 then cuts.getD (index - 1) 0 + minGap else 0 + minGap,
   if index < cuts.length - 1 then cuts.getD (index + 1) 0 - minGap
   else 1 - minGap)

/-- The clamp-and-store of `handleMove` (the spec's
`setCut(index, rawValue)`): `newPct = Math.max(prevLimit,
Math.min(newPct, nextLimit))`, then `next[index] = newPct`.  Total:
never throws. -/
def setCut (cuts : List ℚ) (index : Nat) (rawValue : ℚ) : List ℚ :=
  cuts.set index
    (max (computeBounds cuts index).1 (min rawValue (computeBounds cuts index).2))

/-- The CutSet gap invariant from the spec: three cuts with
`minGap ≤ cut[0]`, `cut[i] + minGap ≤ cut[i+1]`, `cut[2] ≤ 1 - minGap`. -/
def gapInvariant (cuts : List ℚ) : Prop :=
  cuts.length = 3 ∧
  minGap ≤ cuts.getD 0 0 ∧
  cuts.getD 0 0 + minGap ≤ cuts.getD 1 0 ∧
  cuts.getD 1 0 + minGap ≤ cuts.getD 2 0 ∧
  cuts.getD 2 0 ≤ 1 - minGap

instance (cuts : List ℚ) : Decidable (gapInvariant cuts) := by
  unfold gapInvariant; infer_instance

/-- The component state the claims are about: `cuts`, `direction`,
`activeDragIndex`, and the slice results currently exposed to the
gallery through `onResultsGenerated`. -/
structure EditorState where
  cuts : List ℚ
  direction : SplitDirection
  activeDragIndex : Option Nat
  results : List SplitResult
deriving DecidableEq, Repr

/-- `handleDirectionChange(newDirection)`: `setDirection(newDirection)`,
`setCuts([0.25, 0.50, 0.75])`, `onResultsGenerated([])` — all
unconditional. -/
def handleDirectionChange (s : EditorState) (newDirection : SplitDirection) :
    EditorState :=
  { s with direction := newDirection, cuts := defaultCuts, results := [] }

/-- `handleDragStart(index)`: `setActiveDragIndex(index)` — the source
has no bounds check on `index`. -/
def handleDragStart (s : EditorState) (index : Nat) : EditorState :=
  { s with activeDragIndex := some index }

/-- The container's live bounding rectangle
(`containerRef.current.getBoundingClientRect()`). -/
structure ClientRect where
  left : ℚ
  top : ℚ
  width : ℚ
  height : ℚ
deriving DecidableEq, Repr

/-- The pointer-to-fraction map of `handleMove`:
`(clientX - rect.left) / rect.width` for `VERTICAL`,
`(clientY - rect.top) / rect.height` for `HORIZONTAL`.  The source
divides unguarded; a zero dimension would make the JavaScript quotient
`NaN` (or `±Infinity`), so the embedding guards the division with
`Option` and the zero-dimension branch is shown unreachable when the
dimension is positive. -/
def pointerFraction (rect : ClientRect) (direction : SplitDirection)
    (clientX clientY : ℚ) : Option ℚ :=
  match direction with
  | .VERTICAL =>
      if rect.width = 0 then none else some ((clientX - rect.left) / rect.width)
  | .HORIZONTAL =>
      if rect.height = 0 then none else some ((clientY - rect.top) / rect.height)

/-- `handleMove(clientX, clientY)`: no-op (`some s`) when no drag is
active; otherwise compute the fractional pointer position and
clamp-and-store it into the active cut.  `none` is the guarded
zero-dimension division.  (The `!containerRef.current` early return is
the caller not having a rectangle to pass; it is the same no-op.) -/
def handleMove (s : EditorState) (rect : ClientRect)
    (clientX clientY : ℚ) : Option EditorState :=
  match s.activeDragIndex with
  | none => some s
  | some idx =>
      match pointerFraction rect s.direction clientX clientY with
      | none => none
      | some newPct => some { s with cuts := setCut s.cuts idx newPct }

/-- The initial component state: `cuts = [0.25, 0.50, 0.75]`,
`direction = VERTICAL`, no active drag, no results exposed yet. -/
def initialState : EditorState :=
  { cuts := defaultCuts, direction := .VERTICAL,
    activeDragIndex := none, results := [] }

/-- The coordinate of a result rectangle along the split axis:
`sx` when stacking columns left-to-right, `sy` when stacking rows
top-to-bottom. -/
def axisStart (direction : SplitDirection) (r : SplitResult) : ℚ :=
  match direction with
  | .VERTICAL => r.sx
  | .HORIZONTAL => r.sy

/-- The extent of a result rectangle along the split axis. -/
def axisSize (direction : SplitDirection) (r : SplitResult) : ℚ :=
  match direction with
  | .VERTICAL => r.sw
  | .HORIZONTAL => r.sh

/-- The image's extent along the split axis (`W` for columns, `H` for
rows). -/
def axisExtent (direction : SplitDirection) (W H : ℚ) : ℚ :=
  match direction with
  | .VERTICAL => W
  | .HORIZONTAL => H

/-! ## Helper lemmas -/

lemma gapInvariant_triple (c0 c1 c2 : ℚ) :
    gapInvariant [c0, c1, c2] ↔
      minGap ≤ c0 ∧ c0 + minGap ≤ c1 ∧ c1 + minGap ≤ c2 ∧
        c2 ≤ 1 - minGap := by
  simp [gapInvariant, List.getD]

lemma setCut_zero (c0 c1 c2 v : ℚ) :
    setCut [c0, c1, c2] 0 v =
      [max (0 + minGap) (min v (c1 - minGap)), c1, c2] := by
  simp [setCut, computeBounds, List.getD]

lemma setCut_one (c0 c1 c2 v : ℚ) :
    setCut [c0, c1, c2] 1 v =
      [c0, max (c0 + minGap) (min v (c2 - minGap)), c2] := by
  simp [setCut, computeBounds, List.getD]

lemma setCut_two (c0 c1 c2 v : ℚ) :
    setCut [c0, c1, c2] 2 v =
      [c0, c1, max (c1 + minGap) (min v (1 - minGap))] := by
  simp [setCut, computeBounds, List.getD]

/-- Clamp-and-store into any in-range index of an invariant-satisfying
CutSet keeps the invariant and leaves the other two cuts unchanged. -/
lemma gapInvariant_setCut (cuts : List ℚ) (index : Nat) (v : ℚ)
    (hinv : gapInvariant cuts) (hidx : index < 3) :
    gapInvariant (setCut cuts index v) ∧
      ∀ j, j < 3 → j ≠ index →
        (setCut cuts index v).getD j 0 = cuts.getD j 0 := by
  obtain ⟨c0, c1, c2, rfl⟩ := List.length_eq_three.mp hinv.1
  obtain ⟨h1, h2, h3, h4⟩ := (gapInvariant_triple c0 c1 c2).mp hinv
  interval_cases index
  · rw [setCut_zero]
    have hw1 : 0 + minGap ≤ max (0 + minGap) (min v (c1 - minGap)) :=
      le_max_left _ _
    have hw2 : max (0 + minGap) (min v (c1 - minGap)) ≤ c1 - minGap :=
      max_le (by unfold minGap at *; linarith) (min_le_right _ _)
    refine ⟨(gapInvariant_triple _ c1 c2).mpr
      ⟨by linarith, by linarith, h3, h4⟩, ?_⟩
    intro j hj hne
    interval_cases j
    · exact absurd rfl hne
    · rfl
    · rfl
  · rw [setCut_one]
    have hw1 : c0 + minGap ≤ max (c0 + minGap) (min v (c2 - minGap)) :=
      le_max_left _ _
    have hw2 : max (c0 + minGap) (min v (c2 - minGap)) ≤ c2 - minGap :=
      max_le (by unfold minGap at *; linarith) (min_le_right _ _)
    refine ⟨(gapInvariant_triple c0 _ c2).mpr
      ⟨h1, by linarith, by linarith, h4⟩, ?_⟩
    intro j hj hne
    interval_cases j
    · rfl
    · exact absurd rfl hne
    · rfl
  · rw [setCut_two]
    have hw1 : c1 + minGap ≤ max (c1 + minGap) (min v (1 - minGap)) :=
      le_max_left _ _
    have hw2 : max (c1 + minGap) (min v (1 - minGap)) ≤ 1 - minGap :=
      max_le (by unfold minGap at *; linarith) (min_le_right _ _)
    refine ⟨(gapInvariant_triple c0 c1 _).mpr
      ⟨h1, h2, by linarith, by linarith⟩, ?_⟩
    intro j hj hne
    interval_cases j
    · rfl
    · rfl
    · exact absurd rfl hne

/-- The defensive sort is the identity on an already ordered boundary
sequence `0 ≤ cut[0] ≤ cut[1] ≤ cut[2] ≤ 1`. -/
lemma sortedBoundaries_of_ordered (c0 c1 c2 : ℚ) (h0 : 0 ≤ c0)
    (h01 : c0 ≤ c1) (h12 : c1 ≤ c2) (h21 : c2 ≤ 1) :
    sortedBoundaries [c0, c1, c2] = [0, c0, c1, c2, 1] := by
  simp [sortedBoundaries, List.insertionSort, List.orderedInsert,
    h0, h01, h12, h21]

lemma length_sortedBoundaries (cuts : List ℚ) :
    (sortedBoundaries cuts).length = cuts.length + 2 := by
  unfold sortedBoundaries
  rw [List.length_insertionSort]
  simp

lemma sliceResultAt_id {direction : SplitDirection} {W H : ℚ}
    {B : List ℚ} {i : Nat} {r : SplitResult}
    (h : sliceResultAt direction W H B i = some r) : r.id = i := by
  simp only [sliceResultAt] at h
  by_cases hc : (sliceAt direction W H B i).sw ≤ 0 ∨
      (sliceAt direction W H B i).sh ≤ 0
  · rw [if_pos hc] at h
    exact absurd h (by simp)
  · rw [if_neg hc] at h
    have hr := Option.some.inj h
    subst hr
    cases direction <;> rfl

lemma sliceResultAt_eq_none {direction : SplitDirection} {W H : ℚ}
    {B : List ℚ} {i : Nat} (hW : 0 < W) (hH : 0 < H)
    (hdeg : B.getD (i + 1) 0 - B.getD i 0 ≤ 0) :
    sliceResultAt direction W H B i = none := by
  have hcase : (sliceAt direction W H B i).sw ≤ 0 ∨
      (sliceAt direction W H B i).sh ≤ 0 := by
    cases direction
    · exact Or.inr (mul_nonpos_of_nonneg_of_nonpos hH.le hdeg)
    · exact Or.inl (mul_nonpos_of_nonneg_of_nonpos hW.le hdeg)
  simp only [sliceResultAt]
  rw [if_pos hcase]

lemma sliceResultAt_eq_some {direction : SplitDirection} {W H : ℚ}
    {B : List ℚ} {i : Nat} (hW : 0 < W) (hH : 0 < H)
    (hpos : 0 < B.getD (i + 1) 0 - B.getD i 0) :
    sliceResultAt direction W H B i = some (sliceAt direction W H B i) := by
  have hcase : ¬((sliceAt direction W H B i).sw ≤ 0 ∨
      (sliceAt direction W H B i).sh ≤ 0) := by
    push_neg
    cases direction
    · exact ⟨hW, mul_pos hH hpos⟩
    · exact ⟨mul_pos hW hpos, hH⟩
  simp only [sliceResultAt]
  rw [if_neg hcase]

/-- If some element of the list maps to `none`, the `filterMap` is
strictly shorter than the list. -/
lemma length_filterMap_lt_of_none {α β : Type} (f : α → Option β) :
    ∀ (l : List α) (a : α), a ∈ l → f a = none →
      (l.filterMap f).length < l.length := by
  intro l
  induction l with
  | nil => intro a ha _; exact absurd ha (List.not_mem_nil a)
  | cons b l ih =>
      intro a ha hfa
      rcases List.mem_cons.mp ha with rfl | hmem
      · rw [List.filterMap_cons, hfa]
        exact Nat.lt_succ_of_le (List.length_filterMap_le f l)
      · rw [List.filterMap_cons]
        cases hfb : f b with
        | none => exact Nat.lt_succ_of_lt (ih a hmem hfa)
        | some c => simpa using Nat.succ_lt_succ (ih a hmem hfa)

/-! ## Claim theorems -/

/-- C1: for every CutSet satisfying the gap invariant and every rational
`rawValue` (including values outside `[0, 1]`), the clamp-and-store
performed on pointer move (`setCut(index, rawValue)`, lines 142–152 of
the editor) leaves the CutSet satisfying the gap invariant and changes
only `cut[index]`; `setCut` is a total function, so no input throws. -/
theorem C1_setCut_preserves_invariant (cuts : List ℚ) (index : Nat)
    (rawValue : ℚ) (hinv : gapInvariant cuts) (hidx : index < 3) :
    gapInvariant (setCut cuts index rawValue) ∧
      ∀ j, j < 3 → j ≠ index →
        (setCut cuts index rawValue).getD j 0 = cuts.getD j 0 :=
  gapInvariant_setCut cuts index rawValue hinv hidx

/-- Witness for C1 at the spec's Scenario D: dragging cut 0 to raw
fraction `-0.3` clamps to `0.05` (its lower bound) and keeps the
invariant. -/
theorem C1_witness :
    setCut [1/4, 1/2, 3/4] 0 (-3/10) = [1/20, 1/2, 3/4] ∧
      gapInvariant (setCut [1/4, 1/2, 3/4] 0 (-3/10)) := by
  constructor
  · norm_num [setCut, computeBounds, minGap, List.getD]
  · exact (C1_setCut_preserves_invariant [1/4, 1/2, 3/4] 0 (-3/10)
      (by norm_num [gapInvariant, minGap, List.getD]) (by norm_num)).1

/-- C4: `computeBounds(index)` returns
`lowerBound = cut[index-1] + 0.05` if `index > 0` else `0.05` and
`upperBound = cut[index+1] - 0.05` if `index < 2` else `1 - 0.05`; and
for every CutSet satisfying the gap invariant (3 strictly increasing
values each at least `0.05` from neighbors and from the boundaries 0 and
1), `lowerBound ≤ upperBound`. -/
theorem C4_computeBounds_wellFormed (cuts : List ℚ) (index : Nat)
    (hinv : gapInvariant cuts) (hidx : index < 3) :
    computeBounds cuts index =
      (if index > 0 then cuts.getD (index - 1) 0 + minGap else minGap,
       if index < 2 then cuts.getD (index + 1) 0 - minGap
       else 1 - minGap) ∧
    (computeBounds cuts index).1 ≤ (computeBounds cuts index).2 := by
  obtain ⟨c0, c1, c2, rfl⟩ := List.length_eq_three.mp hinv.1
  obtain ⟨h1, h2, h3, h4⟩ := (gapInvariant_triple c0 c1 c2).mp hinv
  unfold minGap at *
  interval_cases index <;>
    exact ⟨by norm_num [computeBounds, List.getD, minGap],
      by norm_num [computeBounds, List.getD, minGap]; linarith⟩

/-- Witness for C4 at the default CutSet, index 1. -/
theorem C4_witness :
    computeBounds [1/4, 1/2, 3/4] 1 = (1/4 + 1/20, 3/4 - 1/20) ∧
      (computeBounds [1/4, 1/2, 3/4] 1).1 ≤
        (computeBounds [1/4, 1/2, 3/4] 1).2 := by
  constructor
  · norm_num [computeBounds, minGap, List.getD]
  · exact (C4_computeBounds_wellFormed [1/4, 1/2, 3/4] 1
      (by norm_num [gapInvariant, minGap, List.getD]) (by norm_num)).2

/-- C5: `handleDirectionChange(newDirection)` replaces the direction with
`newDirection`, resets the CutSet to `[0.25, 0.50, 0.75]` and empties the
exposed result set (`onResultsGenerated([])`).  The statement quantifies
over every prior state and every `newDirection`, so it covers in
particular `newDirection` equal to the current direction: the reset is
unconditional. -/
theorem C5_directionChange_resets (s : EditorState)
    (newDirection : SplitDirection) :
    (handleDirectionChange s newDirection).direction = newDirection ∧
    (handleDirectionChange s newDirection).cuts = [1/4, 1/2, 3/4] ∧
    (handleDirectionChange s newDirection).results = [] :=
  ⟨rfl, rfl, rfl⟩

/-- C7 counterexample: `handleDragStart(5)` — an index outside `[0, 2]`
— is not a silent no-op: the source has no bounds check, so it creates a
drag session for index 5 and changes the component state. -/
theorem C7_counterexample :
    (handleDragStart initialState 5).activeDragIndex = some 5 ∧
      handleDragStart initialState 5 ≠ initialState := by
  refine ⟨rfl, fun h => ?_⟩
  have h' := congrArg EditorState.activeDragIndex h
  simp [handleDragStart, initialState] at h'

/-- C7 amended: `handleDragStart(index)` unconditionally records the
given index as the active drag session — also for indices outside
`[0, 2]` — and changes nothing else; the component's own UI renders one
handle per cut and therefore only ever calls it with indices 0..2. -/
theorem C7_dragStart_sets_index (s : EditorState) (index : Nat) :
    (handleDragStart s index).activeDragIndex = some index ∧
    (handleDragStart s index).cuts = s.cuts ∧
    (handleDragStart s index).direction = s.direction ∧
    (handleDragStart s index).results = s.results :=
  ⟨rfl, rfl, rfl, rfl⟩

/-- C8 counterexample: with the drawing context unavailable the pass
aborts and emits nothing, but it also produces no user-facing message at
all (`userMessage = none`), contradicting the claim that the failure is
surfaced to the user as an "unable to process image" condition. -/
theorem C8_counterexample :
    (generateSlicesPass true false .VERTICAL defaultCuts 400 200).emitted
        = none ∧
    (generateSlicesPass true false .VERTICAL defaultCuts 400
        200).userMessage = none :=
  ⟨rfl, rfl⟩

/-- C8 amended: when the raster-drawing primitive cannot be acquired
(`getContext` returns no context), the pass aborts producing zero
results — `onResultsGenerated` is never called, so no result (in
particular no partial result) is emitted and the previously exposed
results are left untouched — and the failure is silent: no user-facing
message is produced. -/
theorem C8_ctx_unavailable_aborts (direction : SplitDirection)
    (cuts : List ℚ) (W H : ℚ) :
    (generateSlicesPass true false direction cuts W H).emitted = none ∧
    (generateSlicesPass true false direction cuts W H).userMessage
        = none :=
  ⟨rfl, rfl⟩

/-- C9: the rasterizer's rectangle computation is deterministic — two
invocations with identical direction, CutSet and source dimensions
produce identical results for each index.  The embedding of
`generateSlices` is a pure function of exactly these four inputs, so the
two invocations below are the same value. -/
theorem C9_generateSlices_deterministic (d d' : SplitDirection)
    (cuts cuts' : List ℚ) (W W' H H' : ℚ)
    (hd : d = d') (hc : cuts = cuts') (hW : W = W') (hH : H = H') :
    generateSlices d cuts W H = generateSlices d' cuts' W' H' := by
  subst hd; subst hc; subst hW; subst hH; rfl

/-- Witness for C9 at the default inputs. -/
theorem C9_witness :
    generateSlices .VERTICAL defaultCuts 400 200 =
      generateSlices .VERTICAL defaultCuts 400 200 :=
  C9_generateSlices_deterministic _ _ _ _ _ _ _ _ rfl rfl rfl rfl

/-- C2: with CutSet `{0.25, 0.5, 0.75}` and a 400×200 source image, the
rasterizer produces exactly 4 rectangles in index order:
`(0,0,100,200), (100,0,100,200), (200,0,100,200), (300,0,100,200)` for
`VERTICAL` (the spec's ACROSS) and `(0,0,400,50), (0,50,400,50),
(0,100,400,50), (0,150,400,50)` for `HORIZONTAL` (the spec's DOWN). -/
theorem C2_scenario_rectangles :
    generateSlices .VERTICAL [1/4, 1/2, 3/4] 400 200 =
      [⟨0, 0, 0, 100, 200⟩, ⟨1, 100, 0, 100, 200⟩,
       ⟨2, 200, 0, 100, 200⟩, ⟨3, 300, 0, 100, 200⟩] ∧
    generateSlices .HORIZONTAL [1/4, 1/2, 3/4] 400 200 =
      [⟨0, 0, 0, 400, 50⟩, ⟨1, 0, 50, 400, 50⟩,
       ⟨2, 0, 100, 400, 50⟩, ⟨3, 0, 150, 400, 50⟩] := by
  constructor <;>
    norm_num [generateSlices, sortedBoundaries, sliceAt, sliceResultAt,
      List.insertionSort, List.orderedInsert, List.range_succ,
      List.filterMap_cons, List.getD]

/-- C3: for every direction, every ordered CutSet and positive source
dimensions, the four segments cut from the sorted boundary sequence
`(0, cut[0], cut[1], cut[2], 1)` tile the axis in exact arithmetic: the
defensive sort returns exactly that sequence, each segment's rectangle
starts where the previous one ends, every span is non-negative (so
consecutive spans cannot overlap), and the spans sum to `W` (`VERTICAL`)
resp. `H` (`HORIZONTAL`). -/
theorem C3_slices_tile_axis (direction : SplitDirection)
    (c0 c1 c2 W H : ℚ) (h0 : 0 ≤ c0) (h01 : c0 ≤ c1) (h12 : c1 ≤ c2)
    (h21 : c2 ≤ 1) (hW : 0 < W) (hH : 0 < H) :
    sortedBoundaries [c0, c1, c2] = [0, c0, c1, c2, 1] ∧
    (∀ i, i < 3 →
      axisStart direction
          (sliceAt direction W H (sortedBoundaries [c0, c1, c2]) (i + 1)) =
        axisStart direction
            (sliceAt direction W H (sortedBoundaries [c0, c1, c2]) i) +
          axisSize direction
            (sliceAt direction W H (sortedBoundaries [c0, c1, c2]) i)) ∧
    (∀ i, i < 4 →
      0 ≤ axisSize direction
            (sliceAt direction W H (sortedBoundaries [c0, c1, c2]) i)) ∧
    ((List.range 4).map (fun i =>
        axisSize direction
          (sliceAt direction W H (sortedBoundaries [c0, c1, c2]) i))).sum =
      axisExtent direction W H := by
  have hB := sortedBoundaries_of_ordered c0 c1 c2 h0 h01 h12 h21
  rw [hB]
  refine ⟨rfl, ?_, ?_, ?_⟩
  · intro i hi
    interval_cases i <;> cases direction <;>
      simp [sliceAt, axisStart, axisSize, List.getD] <;> ring
  · intro i hi
    interval_cases i <;> cases direction <;>
      simp [sliceAt, axisSize, List.getD] <;>
      first
        | exact mul_nonneg hW.le (by linarith)
        | exact mul_nonneg hH.le (by linarith)
  · cases direction <;>
      simp [sliceAt, axisSize, axisExtent, List.getD, List.range_succ] <;>
      ring

/-- Witness for C3: at the default CutSet on a 400×200 image the four
`VERTICAL` spans sum to the full width. -/
theorem C3_witness :
    ((List.range 4).map (fun i =>
        axisSize .VERTICAL
          (sliceAt .VERTICAL 400 200
            (sortedBoundaries [1/4, 1/2, 3/4]) i))).sum =
      axisExtent .VERTICAL 400 200 :=
  (C3_slices_tile_axis .VERTICAL (1/4) (1/2) (3/4) 400 200
    (by norm_num) (by norm_num) (by norm_num) (by norm_num)
    (by norm_num) (by norm_num)).2.2.2

/-- C6: in every rasterization pass over a 3-cut CutSet on a positive
size image, a consecutive boundary pair whose `sizeFrac` is non-positive
produces no `SplitResult` and no error: the segment is skipped silently
(the loop body is a total function with no exception path), the pass
continues with the remaining segments — every positive-size segment
still yields its result — and the output contains fewer than 4
results. -/
theorem C6_degenerate_segment_skipped (direction : SplitDirection)
    (cuts : List ℚ) (W H : ℚ) (i : Nat) (hlen : cuts.length = 3)
    (hW : 0 < W) (hH : 0 < H) (hi : i < 4)
    (hdeg : (sortedBoundaries cuts).getD (i + 1) 0 -
        (sortedBoundaries cuts).getD i 0 ≤ 0) :
    (∀ r ∈ generateSlices direction cuts W H, r.id ≠ i) ∧
    (generateSlices direction cuts W H).length < 4 ∧
    (∀ j, j < 4 →
      0 < (sortedBoundaries cuts).getD (j + 1) 0 -
          (sortedBoundaries cuts).getD j 0 →
      ∃ r ∈ generateSlices direction cuts W H, r.id = j) := by
  have hB : (sortedBoundaries cuts).length = 5 := by
    rw [length_sortedBoundaries, hlen]
  have hgen : generateSlices direction cuts W H =
      (List.range 4).filterMap
        (sliceResultAt direction W H (sortedBoundaries cuts)) := by
    simp [generateSlices, hB]
  refine ⟨?_, ?_, ?_⟩
  · intro r hr hri
    rw [hgen] at hr
    obtain ⟨a, ha, hfa⟩ := List.mem_filterMap.mp hr
    have hra := sliceResultAt_id hfa
    have hai : a = i := by rw [← hra]; exact hri
    rw [hai, sliceResultAt_eq_none hW hH hdeg] at hfa
    exact Option.noConfusion hfa
  · rw [hgen]
    have hlt := length_filterMap_lt_of_none
      (sliceResultAt direction W H (sortedBoundaries cuts))
      (List.range 4) i (List.mem_range.mpr hi)
      (sliceResultAt_eq_none hW hH hdeg)
    simpa using hlt
  · intro j hj hpos
    refine ⟨sliceAt direction W H (sortedBoundaries cuts) j, ?_, ?_⟩
    · rw [hgen]
      exact List.mem_filterMap.mpr ⟨j, List.mem_range.mpr hj,
        sliceResultAt_eq_some hW hH hpos⟩
    · cases direction <;> rfl

/-- Witness for C6: with the out-of-invariant CutSet
`[0.25, 0.25, 0.75]` the middle boundary pair is degenerate and the pass
yields fewer than 4 results (it yields 3). -/
theorem C6_witness :
    (generateSlices .VERTICAL [1/4, 1/4, 3/4] 400 200).length < 4 :=
  (C6_degenerate_segment_skipped .VERTICAL [1/4, 1/4, 3/4] 400 200 1
    (by norm_num) (by norm_num) (by norm_num) (by norm_num)
    (by norm_num [sortedBoundaries, List.insertionSort,
      List.orderedInsert, List.getD])).2.1

/-- C10 (implicit): `handleMove` divides by the container rectangle's
width (`VERTICAL`) resp. height (`HORIZONTAL`) without a guard, so the
embedding guards the division with `Option`.  Under the hypothesis that
the relevant dimension is positive the error branch is unreachable
(`handleMove ≠ none`) and the resulting clamp-and-store update preserves
the gap invariant. -/
theorem C10_handleMove_guarded (s : EditorState) (rect : ClientRect)
    (clientX clientY : ℚ) (idx : Nat)
    (hdrag : s.activeDragIndex = some idx) (hidx : idx < 3)
    (hinv : gapInvariant s.cuts)
    (hw : s.direction = .VERTICAL → 0 < rect.width)
    (hh : s.direction = .HORIZONTAL → 0 < rect.height) :
    handleMove s rect clientX clientY ≠ none ∧
    gapInvariant (((handleMove s rect clientX clientY).getD s).cuts) := by
  have hfrac : ∃ f,
      pointerFraction rect s.direction clientX clientY = some f := by
    cases hd : s.direction
    · refine ⟨(clientY - rect.top) / rect.height, ?_⟩
      simp [pointerFraction, ne_of_gt (hh hd)]
    · refine ⟨(clientX - rect.left) / rect.width, ?_⟩
      simp [pointerFraction, ne_of_gt (hw hd)]
  obtain ⟨f, hf⟩ := hfrac
  have hmove : handleMove s rect clientX clientY =
      some { s with cuts := setCut s.cuts idx f } := by
    simp [handleMove, hdrag, hf]
  rw [hmove]
  exact ⟨by simp, by
    simpa using (gapInvariant_setCut s.cuts idx f hinv hidx).1⟩

/-- Witness for C10: a concrete drag of cut 1 in a 2×2 container. -/
theorem C10_witness :
    handleMove
        { cuts := [1/4, 1/2, 3/4], direction := .VERTICAL,
          activeDragIndex := some 1, results := [] }
        { left := 0, top := 0, width := 2, height := 2 } 1 0 ≠ none ∧
    gapInvariant (((handleMove
        { cuts := [1/4, 1/2, 3/4], direction := .VERTICAL,
          activeDragIndex := some 1, results := [] }
        { left := 0, top := 0, width := 2, height := 2 } 1 0).getD
        { cuts := [1/4, 1/2, 3/4], direction := .VERTICAL,
          activeDragIndex := some 1, results := [] }).cuts) :=
  C10_handleMove_guarded _ _ 1 0 1 rfl (by norm_num)
    (by norm_num [gapInvariant, minGap, List.getD])
    (fun _ => by norm_num) (fun _ => by norm_num)

end FourSplit
